import Mathlib

/-!
Verification development for the my-kms repository (Go).

The core pieces embedded here, following the source files:
  - the envelope cipher (internal/crypto/aes.go): EncryptAES256GCM / DecryptAES256GCM;
  - the master-key store (internal/storage/master_keys.go): NewMasterKeyStore,
    GetActiveKey, EncryptDataKey, DecryptDataKey, RotateMasterKey;
  - the authorization engine (internal/auth/rbac.go): IsAuthorized;
  - the HTTP handlers that compose them (internal/server/handlers.go):
    GenerateDataKeyHandler and DeleteDataKeyHandler.

Bytes are modelled as lists of natural numbers.  Randomness (nonces, fresh DEK
bytes, fresh key ids) is modelled by passing the random values as explicit
parameters.  The AES-GCM primitive itself lives in the Go standard library, not
in this repository, so it is modelled from the spec (see `keystream`,
`ghashTag`, `gcmSeal`, `gcmOpen` below); everything else is translated directly
from the repository source.
-/

namespace KMS

/-- Byte sequences are lists of natural numbers (each entry one byte). -/
abbrev Bytes := List Nat

/-- GCM standard nonce size in bytes, the value returned by gcm.NonceSize(). -/
def NonceSize : Nat := 12

/-- GCM authentication-tag size in bytes, the value of gcm.Overhead(). -/
def TagSize : Nat := 16

/-- AES-256 key size in bytes (internal/crypto/aes.go, const KeySize = 32). -/
def KeySize : Nat := 32

/-- Fold a byte sequence into a single accumulator value; a building block of
the modelled cipher internals below. -/
def foldBytes (l : Bytes) (seed : Nat) : Nat :=
  l.foldl (fun a b => (a * 131 + b + 17) % 4294967296) seed

/-- Modelled from the spec: AES-256 in GCM mode (Go crypto/aes together with
crypto/cipher, code external to this repository) is a counter-mode AEAD, so
byte i of the keystream is a deterministic function of the key, the nonce and
the position i.  The concrete mixing function is a model; every theorem below
that uses it depends only on it being a deterministic function of these
inputs. -/
def keystream (key nonce : Bytes) (n : Nat) : Bytes :=
  (List.range n).map
    (fun i => (foldBytes nonce (foldBytes key 3) * 2654435761 + i * 40503 + 97) % 256)

/-- Modelled from the spec: the GCM authentication tag is a 16-byte
deterministic function of the key, the nonce and the ciphertext, recomputed
and compared on decryption. -/
def ghashTag (key nonce ct : Bytes) : Bytes :=
  (List.range TagSize).map
    (fun i => (foldBytes ct (foldBytes nonce (foldBytes key 5)) * 2246822519 + i * 9176 + 31) % 256)

/-- Pointwise XOR of two byte sequences, truncated to the shorter one
(counter-mode combination of plaintext and keystream). -/
def xorBytes (a b : Bytes) : Bytes := List.zipWith Nat.xor a b

/-- Modelled from the spec: gcm.Seal(nil, nonce, plaintext, nil) returns the
ciphertext (plaintext XOR keystream) followed by the 16-byte tag. -/
def gcmSeal (key nonce pt : Bytes) : Bytes :=
  xorBytes pt (keystream key nonce pt.length) ++
    ghashTag key nonce (xorBytes pt (keystream key nonce pt.length))

/-- Modelled from the spec: gcm.Open(nil, nonce, data, nil) rejects inputs
shorter than the tag, recomputes the tag over the ciphertext part and compares
it, and on success XORs the keystream back off. -/
def gcmOpen (key nonce data : Bytes) : Option Bytes :=
  if data.length < TagSize then none
  else if data.drop (data.length - TagSize) = ghashTag key nonce (data.take (data.length - TagSize)) then
    some (xorBytes (data.take (data.length - TagSize))
      (keystream key nonce (data.take (data.length - TagSize)).length))
  else none

/-- aes.NewCipher(key) succeeds exactly for the AES-128/192/256 key sizes. -/
def validAESKeyLen (key : Bytes) : Bool :=
  key.length == 16 || key.length == 24 || key.length == 32

/-- EncryptAES256GCM (internal/crypto/aes.go): build the AES cipher, draw a
fresh random nonce (modelled as the explicit `nonce` parameter), and return
gcm.Seal(nonce, nonce, plaintext, nil), i.e. the nonce with ciphertext and tag
appended. -/
def EncryptAES256GCM (key nonce plaintext : Bytes) : Except String Bytes :=
  if validAESKeyLen key then .ok (nonce ++ gcmSeal key nonce plaintext)
  else .error "failed to create AES cipher"

/-- DecryptAES256GCM (internal/crypto/aes.go): build the AES cipher, reject
ciphertext shorter than the 12-byte nonce, split nonce from the remainder and
open with GCM. -/
def DecryptAES256GCM (key ciphertext : Bytes) : Except String Bytes :=
  if validAESKeyLen key then
    if ciphertext.length < NonceSize then .error "ciphertext too short"
    else
      match gcmOpen key (ciphertext.take NonceSize) (ciphertext.drop NonceSize) with
      | some pt => .ok pt
      | none => .error "failed to decrypt ciphertext"
  else .error "failed to create AES cipher"

/-! ### Basic facts about the modelled cipher -/

theorem keystream_length (key nonce : Bytes) (n : Nat) : (keystream key nonce n).length = n := by
  simp [keystream]

theorem ghashTag_length (key nonce ct : Bytes) : (ghashTag key nonce ct).length = TagSize := by
  simp [ghashTag]

theorem xorBytes_length (a b : Bytes) : (xorBytes a b).length = min a.length b.length := by
  simp [xorBytes]

theorem xorBytes_cancel (a b : Bytes) (h : a.length ≤ b.length) :
    xorBytes (xorBytes a b) b = a := by
  induction a generalizing b with
  | nil => simp [xorBytes]
  | cons x xs ih =>
    cases b with
    | nil => simp at h
    | cons y ys =>
      simp only [List.length_cons, Nat.succ_le_succ_iff] at h
      have hx : Nat.xor (Nat.xor x y) y = x := Nat.xor_cancel_right y x
      simp [xorBytes] at ih ⊢
      exact ⟨hx, ih ys h⟩

theorem gcmSeal_length (key nonce pt : Bytes) :
    (gcmSeal key nonce pt).length = pt.length + TagSize := by
  simp [gcmSeal, xorBytes_length, keystream_length, ghashTag_length]

theorem gcmOpen_append_tag (key nonce c : Bytes) :
    gcmOpen key nonce (c ++ ghashTag key nonce c) =
      some (xorBytes c (keystream key nonce c.length)) := by
  have hlen : (c ++ ghashTag key nonce c).length = c.length + TagSize := by
    simp [ghashTag_length]
  unfold gcmOpen
  rw [hlen]
  have h1 : c.length + TagSize - TagSize = c.length := by omega
  rw [if_neg (by omega), h1, List.take_left, List.drop_left, if_pos rfl]

theorem gcmOpen_gcmSeal (key nonce pt : Bytes) :
    gcmOpen key nonce (gcmSeal key nonce pt) = some pt := by
  have hct : (xorBytes pt (keystream key nonce pt.length)).length = pt.length := by
    simp [xorBytes_length, keystream_length]
  unfold gcmSeal
  rw [gcmOpen_append_tag, hct]
  exact congrArg some (xorBytes_cancel pt (keystream key nonce pt.length) (by rw [keystream_length]))

/-! ### Authorization engine (internal/auth/rbac.go)

Role and Action are Go string types; their defined constants follow. -/

/-- Role constant (rbac.go). -/
def RoleAdmin : String := "ADMIN"

/-- Role constant (rbac.go). -/
def RoleService : String := "SERVICE"

/-- Role constant (rbac.go). -/
def RoleAuditor : String := "AUDITOR"

/-- Action constant (rbac.go). -/
def ActionGenerateDataKey : String := "GENERATE_DATA_KEY"

/-- Action constant (rbac.go). -/
def ActionEncrypt : String := "ENCRYPT"

/-- Action constant (rbac.go). -/
def ActionDecrypt : String := "DECRYPT"

/-- Action constant (rbac.go). -/
def ActionRotateMasterKey : String := "ROTATE_MASTER_KEY"

/-- Identity (rbac.go): a user name together with a role. -/
structure Identity where
  name : String
  role : String
deriving DecidableEq

/-- IsAuthorized (rbac.go): switch on the role, with the SERVICE whitelist of
three actions; `none` models the Go nil error (allow), `some msg` models the
returned error (deny). -/
def IsAuthorized (id : Identity) (action : String) : Option String :=
  if id.role = RoleAdmin then none
  else if id.role = RoleService then
    if action = ActionGenerateDataKey ∨ action = ActionEncrypt ∨ action = ActionDecrypt then none
    else some "action not authorized for SERVICE role"
  else if id.role = RoleAuditor then some "action not authorized for AUDITOR role"
  else some "unknown role"

/-! ### Master key store (internal/storage/master_keys.go)

The Go map masterKeys is modelled as an association list where insertion
prepends, so lookup (first match) sees the latest insertion, matching map
overwrite semantics.  The sync.RWMutex disappears in this sequential model. -/

/-- MasterKey (master_keys.go): id and raw key bytes. -/
structure MasterKey where
  id : String
  key : Bytes
deriving DecidableEq

/-- MasterKeyStore (master_keys.go): the key table and the active key id. -/
structure MasterKeyStore where
  masterKeys : List (String × MasterKey)
  activeKeyID : String
deriving DecidableEq

/-- Go map assignment mkMap[k.ID] = k, modelled as a shadowing prepend. -/
def insertKey (tbl : List (String × MasterKey)) (k : MasterKey) : List (String × MasterKey) :=
  (k.id, k) :: tbl

/-- Go map read mkMap[id]. -/
def lookupKey (m : MasterKeyStore) (id : String) : Option MasterKey :=
  m.masterKeys.lookup id

/-- The validation loop in NewMasterKeyStore: insert each key, rejecting any
whose material is not exactly 32 bytes. -/
def buildKeyMap : List MasterKey → List (String × MasterKey) →
    Except String (List (String × MasterKey))
  | [], acc => .ok acc
  | k :: rest, acc =>
    if k.key.length = 32 then buildKeyMap rest (insertKey acc k)
    else .error "master key must be 32 bytes for AES-256"

/-- NewMasterKeyStore (master_keys.go): reject an empty list, validate and
insert every key, and make the first key of the list the active one. -/
def NewMasterKeyStore (keys : List MasterKey) : Except String MasterKeyStore :=
  match keys with
  | [] => .error "no master keys provided"
  | k0 :: rest =>
    (buildKeyMap (k0 :: rest) []).map
      (fun tbl => { masterKeys := tbl, activeKeyID := k0.id })

/-- GetActiveKey (master_keys.go). -/
def GetActiveKey (m : MasterKeyStore) : Except String MasterKey :=
  match lookupKey m m.activeKeyID with
  | some k => .ok k
  | none => .error "active master key not found"

/-- EncryptDataKey (master_keys.go): look up the active key, build AES-GCM,
draw a random nonce (the explicit `nonce` parameter) and return
gcm.Seal(nonce, nonce, dek, nil) together with the id of the key used. -/
def EncryptDataKey (m : MasterKeyStore) (nonce dek : Bytes) : Except String (Bytes × String) :=
  match lookupKey m m.activeKeyID with
  | none => .error "active master key not found"
  | some activeKey =>
    if validAESKeyLen activeKey.key then
      .ok (nonce ++ gcmSeal activeKey.key nonce dek, activeKey.id)
    else .error "invalid key size"

/-- DecryptDataKey (master_keys.go): look up the requested master key id,
reject ciphertext shorter than the nonce, split and open with GCM. -/
def DecryptDataKey (m : MasterKeyStore) (encryptedDEK : Bytes) (masterKeyID : String) :
    Except String Bytes :=
  match lookupKey m masterKeyID with
  | none => .error "specified master key not found"
  | some masterKey =>
    if validAESKeyLen masterKey.key then
      if encryptedDEK.length < NonceSize then .error "ciphertext too short"
      else
        match gcmOpen masterKey.key (encryptedDEK.take NonceSize) (encryptedDEK.drop NonceSize) with
        | some dek => .ok dek
        | none => .error "message authentication failed"
    else .error "invalid key size"

/-- RotateMasterKey (master_keys.go): 32 fresh random key bytes and a fresh
uuid (both modelled as explicit parameters) form the new master key, which is
inserted into the table and made active; the new key is returned. -/
def RotateMasterKey (m : MasterKeyStore) (newKeyBytes : Bytes) (newKeyID : String) :
    MasterKeyStore × MasterKey :=
  ({ masterKeys := insertKey m.masterKeys ⟨newKeyID, newKeyBytes⟩, activeKeyID := newKeyID },
   ⟨newKeyID, newKeyBytes⟩)

/-- A sequence of RotateMasterKey calls, each with its random key bytes and
fresh id, applied left to right. -/
def rotateMany (m : MasterKeyStore) (rots : List (Bytes × String)) : MasterKeyStore :=
  rots.foldl (fun s r => (RotateMasterKey s r.1 r.2).1) m

/-! ### External DEK store and HTTP handlers
(internal/storage/mongo_dek_store.go, internal/server/handlers.go)

The Mongo collection is modelled as an association list of documents keyed by
record id; fresh Mongo object ids are explicit parameters. -/

/-- DEKDocument (mongo_dek_store.go): the wrapped DEK bytes and the id of the
master key that wrapped them.  The plaintext DEK has no field here. -/
structure DEKDocument where
  dek : Bytes
  masterKeyID : String
deriving DecidableEq

/-- The external Mongo DEK collection. -/
abbrev DEKStore := List (String × DEKDocument)

/-- InsertDEK (mongo_dek_store.go): insert a document holding the encrypted
DEK and the master key id; the fresh object id (newID parameter) is returned
as the record id. -/
def InsertDEK (ds : DEKStore) (newID : String) (dekEncrypted : Bytes) (masterKeyID : String) :
    String × DEKStore :=
  (newID, (newID, ⟨dekEncrypted, masterKeyID⟩) :: ds)

/-- DeleteDEK (mongo_dek_store.go): DeleteOne by record id; a missing id is
not an error. -/
def DeleteDEK (ds : DEKStore) (id : String) : DEKStore :=
  ds.eraseP (fun p => p.1 == id)

/-- Error outcomes of the handlers: 403 Forbidden with the authorization
message, or a 5xx internal failure. -/
inductive HandlerError where
  | forbidden (msg : String)
  | internalError (msg : String)
deriving DecidableEq

/-- GenerateDataKeyResponse (handlers.go): exactly a dekID and a masterKeyID,
nothing else. -/
structure GenerateDataKeyResponse where
  dekID : String
  masterKeyID : String
deriving DecidableEq

/-- GenerateDataKeyHandler (handlers.go): authorize GENERATE_DATA_KEY,
generate a DEK (the dek parameter models crypto.GenerateKey), wrap it with
EncryptDataKey (the nonce parameter models its random nonce), store the
wrapped DEK via InsertDEK (newID models the fresh Mongo id), and respond with
the record id and the master key id. -/
def GenerateDataKeyHandler (id : Identity) (dek nonce : Bytes) (newID : String)
    (ks : MasterKeyStore) (ds : DEKStore) :
    Except HandlerError (GenerateDataKeyResponse × DEKStore) :=
  match IsAuthorized id ActionGenerateDataKey with
  | some e => .error (.forbidden e)
  | none =>
    match EncryptDataKey ks nonce dek with
    | .error _ => .error (.internalError "encryption failed")
    | .ok (encryptedDEK, masterKeyID) =>
      .ok ({ dekID := (InsertDEK ds newID encryptedDEK masterKeyID).1,
             masterKeyID := masterKeyID },
           (InsertDEK ds newID encryptedDEK masterKeyID).2)

/-- The action DeleteDataKeyHandler passes to IsAuthorized (handlers.go): the
source reuses auth.ActionRotateMasterKey and defines no DELETE_DATA_KEY
action constant. -/
def deleteDataKeyGateAction : String := ActionRotateMasterKey

/-- Outcomes of DeleteDataKeyHandler: 403 Forbidden or 204 No Content. -/
inductive DeleteResult where
  | forbidden (msg : String)
  | noContent
deriving DecidableEq

/-- DeleteDataKeyHandler (handlers.go): authorize with deleteDataKeyGateAction
and, when allowed, delete the record and answer 204 No Content. -/
def DeleteDataKeyHandler (id : Identity) (dekID : String) (ds : DEKStore) :
    DeleteResult × DEKStore :=
  match IsAuthorized id deleteDataKeyGateAction with
  | some e => (.forbidden e, ds)
  | none => (.noContent, DeleteDEK ds dekID)

/-! ### Key-table well-formedness and reachable store states -/

/-- A key-table entry is good when it is stored under its own id and holds
exactly 32 bytes of material. -/
def goodEntry (p : String × MasterKey) : Bool :=
  p.2.id == p.1 && p.2.key.length == 32

/-- Well-formed key table: every entry is good. -/
def StoreWF (m : MasterKeyStore) : Bool :=
  m.masterKeys.all goodEntry

/-- Store states reachable from a successful NewMasterKeyStore under the store
operations.  GetActiveKey, EncryptDataKey and DecryptDataKey never change the
state, so RotateMasterKey — which in the source always draws exactly 32 random
key bytes — is the only transition. -/
inductive Reachable : MasterKeyStore → Prop where
  | init (keys : List MasterKey) (m : MasterKeyStore) :
      NewMasterKeyStore keys = .ok m → Reachable m
  | rotate (m : MasterKeyStore) (kb : Bytes) (kid : String) :
      Reachable m → kb.length = 32 → Reachable (RotateMasterKey m kb kid).1

theorem lookup_good (tbl : List (String × MasterKey)) (h : tbl.all goodEntry)
    (id : String) (k : MasterKey) (hl : tbl.lookup id = some k) :
    k.id = id ∧ k.key.length = 32 := by
  induction tbl with
  | nil => simp [List.lookup] at hl
  | cons p rest ih =>
    simp only [List.all_cons, Bool.and_eq_true] at h
    rw [List.lookup] at hl
    split at hl
    · next hid =>
      obtain rfl := Option.some.inj hl
      simp only [goodEntry, Bool.and_eq_true, beq_iff_eq] at h
      exact ⟨h.1.1.trans (eq_of_beq hid).symm, h.1.2⟩
    · exact ih h.2 hl

theorem buildKeyMap_mono (keys : List MasterKey) : ∀ (acc tbl : List (String × MasterKey)),
    buildKeyMap keys acc = .ok tbl → ∀ id : String,
    (acc.lookup id).isSome → (tbl.lookup id).isSome := by
  induction keys with
  | nil =>
    intro acc tbl h id hs
    simp only [buildKeyMap] at h
    obtain rfl := Except.ok.inj h
    exact hs
  | cons k rest ih =>
    intro acc tbl h id hs
    simp only [buildKeyMap] at h
    split at h
    · refine ih (insertKey acc k) tbl h id ?_
      simp only [insertKey, List.lookup]
      cases hid : id == k.id
      · simpa using hs
      · simp
    · exact absurd h (by simp)

theorem buildKeyMap_all (keys : List MasterKey) : ∀ (acc tbl : List (String × MasterKey)),
    buildKeyMap keys acc = .ok tbl → acc.all goodEntry → tbl.all goodEntry := by
  induction keys with
  | nil =>
    intro acc tbl h hacc
    simp only [buildKeyMap] at h
    obtain rfl := Except.ok.inj h
    exact hacc
  | cons k rest ih =>
    intro acc tbl h hacc
    simp only [buildKeyMap] at h
    split at h
    · next hlen =>
      refine ih (insertKey acc k) tbl h ?_
      simp only [insertKey, List.all_cons, Bool.and_eq_true]
      exact ⟨by simp [goodEntry, hlen], hacc⟩
    · exact absurd h (by simp)

theorem buildKeyMap_mem_isSome (keys : List MasterKey) : ∀ (acc tbl : List (String × MasterKey)),
    buildKeyMap keys acc = .ok tbl → ∀ k ∈ keys, (tbl.lookup k.id).isSome := by
  induction keys with
  | nil =>
    intro acc tbl h k hk
    simp at hk
  | cons k0 rest ih =>
    intro acc tbl h k hk
    simp only [buildKeyMap] at h
    split at h
    · rcases List.mem_cons.mp hk with rfl | hmem
      · refine buildKeyMap_mono rest (insertKey acc k) tbl h k.id ?_
        simp [insertKey, List.lookup]
      · exact ih (insertKey acc k0) tbl h k hmem
    · exact absurd h (by simp)

theorem reachable_wf_active (m : MasterKeyStore) (h : Reachable m) :
    StoreWF m = true ∧ (lookupKey m m.activeKeyID).isSome := by
  induction h with
  | init keys m hnew =>
    cases keys with
    | nil => simp [NewMasterKeyStore] at hnew
    | cons k0 rest =>
      simp only [NewMasterKeyStore, Except.map] at hnew
      split at hnew
      · exact absurd hnew (by simp)
      · next tbl hbuild =>
        obtain rfl := Except.ok.inj hnew
        refine ⟨buildKeyMap_all (k0 :: rest) [] tbl hbuild (by simp), ?_⟩
        exact buildKeyMap_mem_isSome (k0 :: rest) [] tbl hbuild k0 (by simp)
  | rotate m kb kid _ hkb ih =>
    refine ⟨?_, ?_⟩
    · simp only [StoreWF, RotateMasterKey, insertKey, List.all_cons, Bool.and_eq_true]
      exact ⟨by simp [goodEntry, hkb], by simpa [StoreWF] using ih.1⟩
    · simp [lookupKey, RotateMasterKey, insertKey, List.lookup]

/-! ### Operation-level lemmas -/

theorem encryptDataKey_ok (m : MasterKeyStore) (nonce dek blob : Bytes) (A : String)
    (h : EncryptDataKey m nonce dek = .ok (blob, A)) :
    ∃ ak : MasterKey, lookupKey m m.activeKeyID = some ak ∧ ak.id = A ∧
      validAESKeyLen ak.key = true ∧ blob = nonce ++ gcmSeal ak.key nonce dek := by
  unfold EncryptDataKey at h
  split at h
  · simp at h
  · next ak hak =>
    split at h
    · next hv =>
      simp only [Except.ok.injEq, Prod.mk.injEq] at h
      obtain ⟨rfl, rfl⟩ := h
      exact ⟨ak, hak, rfl, hv, rfl⟩
    · simp at h

theorem decryptDataKey_unwraps (m : MasterKeyStore) (ak : MasterKey) (nonce dek : Bytes)
    (A : String) (hak : lookupKey m A = some ak) (hv : validAESKeyLen ak.key = true)
    (hn : nonce.length = NonceSize) :
    DecryptDataKey m (nonce ++ gcmSeal ak.key nonce dek) A = .ok dek := by
  unfold DecryptDataKey
  simp only [hak]
  have hnot : ¬ ((nonce ++ gcmSeal ak.key nonce dek).length < NonceSize) := by
    simp only [List.length_append, gcmSeal_length, hn]
    omega
  rw [if_pos hv, if_neg hnot, ← hn, List.take_left, List.drop_left, gcmOpen_gcmSeal]

theorem lookupKey_rotateMany_fresh (rots : List (Bytes × String)) :
    ∀ (m : MasterKeyStore) (A : String), (∀ r ∈ rots, r.2 ≠ A) →
    lookupKey (rotateMany m rots) A = lookupKey m A := by
  induction rots with
  | nil => intro m A _; rfl
  | cons r rs ih =>
    intro m A hfresh
    have hbeq : (A == r.2) = false :=
      beq_eq_false_iff_ne.mpr (fun hAr => (hfresh r (by simp)) hAr.symm)
    have hstep : lookupKey (RotateMasterKey m r.1 r.2).1 A = lookupKey m A := by
      simp only [lookupKey, RotateMasterKey, insertKey, List.lookup]
      rw [hbeq]
    calc lookupKey (rotateMany m (r :: rs)) A
        = lookupKey (rotateMany (RotateMasterKey m r.1 r.2).1 rs) A := rfl
      _ = lookupKey (RotateMasterKey m r.1 r.2).1 A :=
          ih (RotateMasterKey m r.1 r.2).1 A (fun x hx => hfresh x (by simp [hx]))
      _ = lookupKey m A := hstep

theorem rotateMany_active (rots : List (Bytes × String)) :
    ∀ m : MasterKeyStore, rots ≠ [] →
    ∃ r ∈ rots, GetActiveKey (rotateMany m rots) = .ok ⟨r.2, r.1⟩ := by
  induction rots with
  | nil => intro m h; exact absurd rfl h
  | cons r rs ih =>
    intro m _
    cases rs with
    | nil =>
      refine ⟨r, by simp, ?_⟩
      simp [rotateMany, GetActiveKey, lookupKey, RotateMasterKey, insertKey, List.lookup]
    | cons r2 rs2 =>
      obtain ⟨x, hx, hget⟩ := ih (RotateMasterKey m r.1 r.2).1 (by simp)
      exact ⟨x, by simp [hx], hget⟩

theorem buildKeyMap_error (keys : List MasterKey) :
    ∀ acc : List (String × MasterKey), (∃ k ∈ keys, k.key.length ≠ 32) →
    buildKeyMap keys acc = .error "master key must be 32 bytes for AES-256" := by
  induction keys with
  | nil =>
    intro acc h
    simp at h
  | cons k0 rest ih =>
    intro acc h
    by_cases h0 : k0.key.length = 32
    · obtain ⟨k, hk, hbad⟩ := h
      rcases List.mem_cons.mp hk with rfl | hmem
      · exact absurd h0 hbad
      · simp only [buildKeyMap, if_pos h0]
        exact ih (insertKey acc k0) ⟨k, hmem, hbad⟩
    · simp only [buildKeyMap, if_neg h0]

theorem buildKeyMap_total (keys : List MasterKey) :
    ∀ acc : List (String × MasterKey), (∀ k ∈ keys, k.key.length = 32) →
    ∃ tbl, buildKeyMap keys acc = .ok tbl := by
  induction keys with
  | nil => intro acc _; exact ⟨acc, rfl⟩
  | cons k0 rest ih =>
    intro acc hall
    have h0 : k0.key.length = 32 := hall k0 (by simp)
    simp only [buildKeyMap, if_pos h0]
    exact ih (insertKey acc k0) (fun k hk => hall k (by simp [hk]))

/-! ### Claim theorems -/

/-- C1: over the closed role set ADMIN, SERVICE, AUDITOR and the closed action
set GENERATE_DATA_KEY, ENCRYPT, DECRYPT, ROTATE_MASTER_KEY, DELETE_DATA_KEY,
IsAuthorized returns exactly the authorization table: ADMIN is allowed every
action, SERVICE is allowed exactly GENERATE_DATA_KEY, ENCRYPT and DECRYPT and
denied the rest, AUDITOR is denied every action, and any role outside the
closed set is denied with reason unknown role.  The ADMIN, SERVICE and AUDITOR
conjuncts are proved for every action string, which covers the five actions of
the closed set (DELETE_DATA_KEY included). -/
theorem authorization_matrix :
    (∀ n a, IsAuthorized ⟨n, RoleAdmin⟩ a = none) ∧
    (∀ n a, IsAuthorized ⟨n, RoleService⟩ a = none ↔
      (a = ActionGenerateDataKey ∨ a = ActionEncrypt ∨ a = ActionDecrypt)) ∧
    (∀ n a, ¬(a = ActionGenerateDataKey ∨ a = ActionEncrypt ∨ a = ActionDecrypt) →
      IsAuthorized ⟨n, RoleService⟩ a = some "action not authorized for SERVICE role") ∧
    (∀ n a, IsAuthorized ⟨n, RoleAuditor⟩ a = some "action not authorized for AUDITOR role") ∧
    (∀ n r a, r ≠ RoleAdmin → r ≠ RoleService → r ≠ RoleAuditor →
      IsAuthorized ⟨n, r⟩ a = some "unknown role") := by
  refine ⟨?_, ?_, ?_, ?_, ?_⟩
  · intro n a
    simp [IsAuthorized]
  · intro n a
    by_cases hc : a = ActionGenerateDataKey ∨ a = ActionEncrypt ∨ a = ActionDecrypt
    · simp [IsAuthorized, RoleAdmin, RoleService, hc]
    · simp [IsAuthorized, RoleAdmin, RoleService, hc]
  · intro n a hc
    simp [IsAuthorized, RoleAdmin, RoleService, hc]
  · intro n a
    simp [IsAuthorized, RoleAdmin, RoleService, RoleAuditor]
  · intro n r a h1 h2 h3
    simp [IsAuthorized, h1, h2, h3]

/-- C1 witness: the hypothesis-bearing conjuncts applied at concrete inputs:
SERVICE is denied DELETE_DATA_KEY and an unknown role GUEST is denied
ENCRYPT. -/
theorem authorization_matrix_witness :
    IsAuthorized ⟨"acct", RoleService⟩ "DELETE_DATA_KEY" =
      some "action not authorized for SERVICE role" ∧
    IsAuthorized ⟨"acct", "GUEST"⟩ ActionEncrypt = some "unknown role" :=
  ⟨authorization_matrix.2.2.1 "acct" "DELETE_DATA_KEY" (by decide),
   authorization_matrix.2.2.2.2 "acct" "GUEST" ActionEncrypt
     (by decide) (by decide) (by decide)⟩

/-- C10: the ADMIN branch of IsAuthorized returns allow without any per-action
check, so every action string whatsoever is allowed for ADMIN, including
strings outside the five defined actions. -/
theorem admin_allows_any_action :
    (∀ n a, IsAuthorized ⟨n, RoleAdmin⟩ a = none) ∧
    IsAuthorized ⟨"root", RoleAdmin⟩ "NOT_A_DEFINED_ACTION" = none := by
  refine ⟨?_, ?_⟩
  · intro n a
    simp [IsAuthorized]
  · simp [IsAuthorized]

/-- C3: for every 32-byte key and every payload, decrypting the blob produced
by encryption returns exactly the payload. -/
theorem encrypt_decrypt_round_trip (key nonce p blob : Bytes)
    (hk : key.length = 32) (hn : nonce.length = NonceSize)
    (he : EncryptAES256GCM key nonce p = .ok blob) :
    DecryptAES256GCM key blob = .ok p := by
  have hv : validAESKeyLen key = true := by simp [validAESKeyLen, hk]
  unfold EncryptAES256GCM at he
  rw [if_pos hv] at he
  obtain rfl := Except.ok.inj he
  unfold DecryptAES256GCM
  have hnot : ¬ ((nonce ++ gcmSeal key nonce p).length < NonceSize) := by
    simp only [List.length_append, gcmSeal_length, hn]
    omega
  rw [if_pos hv, if_neg hnot, ← hn, List.take_left, List.drop_left, gcmOpen_gcmSeal]

/-- C8: a successfully produced blob has the shape nonce(12) with ciphertext
and a 16-byte tag appended and no length prefix: its total length is the
payload length plus 28, and its first 12 bytes are the nonce that decryption
splits off. -/
theorem encrypted_blob_shape (key nonce p blob : Bytes)
    (hk : key.length = 32) (hn : nonce.length = NonceSize)
    (he : EncryptAES256GCM key nonce p = .ok blob) :
    blob.length = p.length + 28 ∧ blob.take NonceSize = nonce ∧
    ∃ ct tag : Bytes, blob = nonce ++ (ct ++ tag) ∧
      ct.length = p.length ∧ tag.length = TagSize := by
  have hv : validAESKeyLen key = true := by simp [validAESKeyLen, hk]
  unfold EncryptAES256GCM at he
  rw [if_pos hv] at he
  obtain rfl := Except.ok.inj he
  refine ⟨?_, ?_, ?_⟩
  · simp only [List.length_append, gcmSeal_length, hn, NonceSize, TagSize]
    omega
  · rw [← hn, List.take_left]
  · exact ⟨xorBytes p (keystream key nonce p.length),
      ghashTag key nonce (xorBytes p (keystream key nonce p.length)),
      rfl, by simp [xorBytes_length, keystream_length], ghashTag_length key nonce _⟩

/-- C7: for a 32-byte key and any blob shorter than the 12-byte nonce,
DecryptAES256GCM — and DecryptDataKey for a known master-key id holding
32-byte material — returns the ciphertext too short error; in this total
model the nonce and ciphertext slicing is guarded by this check and stays in
bounds. -/
theorem decrypt_too_short (key blob : Bytes) (hk : key.length = 32)
    (hb : blob.length < NonceSize)
    (m : MasterKeyStore) (mkid : String) (mk : MasterKey)
    (hmk : lookupKey m mkid = some mk) (hmklen : mk.key.length = 32) :
    DecryptAES256GCM key blob = .error "ciphertext too short" ∧
    DecryptDataKey m blob mkid = .error "ciphertext too short" := by
  have hv : validAESKeyLen key = true := by simp [validAESKeyLen, hk]
  have hv2 : validAESKeyLen mk.key = true := by simp [validAESKeyLen, hmklen]
  constructor
  · unfold DecryptAES256GCM
    rw [if_pos hv, if_pos hb]
  · unfold DecryptDataKey
    simp only [hmk]
    rw [if_pos hv2, if_pos hb]

/-- C2: a DEK wrapped by EncryptDataKey under the active key id A stays
decryptable via DecryptDataKey with A after any number of rotations with
fresh key ids, returning the original DEK, while GetActiveKey then returns a
key with a different id. -/
theorem rotation_durability (m : MasterKeyStore) (nonce dek blob : Bytes) (A : String)
    (hwf : StoreWF m = true) (hn : nonce.length = NonceSize)
    (henc : EncryptDataKey m nonce dek = .ok (blob, A))
    (rots : List (Bytes × String)) (hfresh : ∀ r ∈ rots, r.2 ≠ A) :
    DecryptDataKey (rotateMany m rots) blob A = .ok dek ∧
    (rots ≠ [] → ∃ k, GetActiveKey (rotateMany m rots) = .ok k ∧ k.id ≠ A) := by
  obtain ⟨ak, hak, hakid, hv, rfl⟩ := encryptDataKey_ok m nonce dek blob A henc
  have hgood := lookup_good m.masterKeys hwf m.activeKeyID ak hak
  have hlA : lookupKey m A = some ak := by
    rw [← hakid, hgood.1]
    exact hak
  constructor
  · refine decryptDataKey_unwraps (rotateMany m rots) ak nonce dek A ?_ hv hn
    rw [lookupKey_rotateMany_fresh rots m A hfresh]
    exact hlA
  · intro hne
    obtain ⟨r, hr, hget⟩ := rotateMany_active rots m hne
    exact ⟨⟨r.2, r.1⟩, hget, hfresh r hr⟩

/-- C6: in every store state reachable from a successful NewMasterKeyStore
under the store operations, the active key id resolves in the key table,
GetActiveKey and EncryptDataKey take their success branch (the active master
key not found branch is unreachable), and rotation never removes a table
entry (the table is append-only). -/
theorem reachable_store_invariant (m : MasterKeyStore) (h : Reachable m) :
    (∃ k, lookupKey m m.activeKeyID = some k) ∧
    (∃ k, GetActiveKey m = .ok k) ∧
    (∀ nonce dek, ∃ blob, EncryptDataKey m nonce dek = .ok (blob, m.activeKeyID)) ∧
    (∀ kb kid id, (lookupKey m id).isSome →
      (lookupKey (RotateMasterKey m kb kid).1 id).isSome) := by
  obtain ⟨hwf, hsome⟩ := reachable_wf_active m h
  obtain ⟨ak, hak⟩ := Option.isSome_iff_exists.mp hsome
  have hgood := lookup_good m.masterKeys hwf m.activeKeyID ak hak
  have hv : validAESKeyLen ak.key = true := by simp [validAESKeyLen, hgood.2]
  refine ⟨⟨ak, hak⟩, ⟨ak, ?_⟩, ?_, ?_⟩
  · unfold GetActiveKey
    rw [hak]
  · intro nonce dek
    refine ⟨nonce ++ gcmSeal ak.key nonce dek, ?_⟩
    unfold EncryptDataKey
    simp only [hak]
    rw [if_pos hv, hgood.1]
  · intro kb kid id hid
    simp only [lookupKey, RotateMasterKey, insertKey, List.lookup]
    cases hbeq : id == kid
    · simpa [lookupKey] using hid
    · simp

/-- C6 witness: the invariant applied to the one-key store built by
NewMasterKeyStore. -/
theorem reachable_store_invariant_witness :
    (∃ k, lookupKey ⟨[("k0", ⟨"k0", List.replicate 32 7⟩)], "k0"⟩
      (MasterKeyStore.activeKeyID ⟨[("k0", ⟨"k0", List.replicate 32 7⟩)], "k0"⟩) = some k) ∧
    (∃ k, GetActiveKey ⟨[("k0", ⟨"k0", List.replicate 32 7⟩)], "k0"⟩ = .ok k) ∧
    (∀ nonce dek, ∃ blob, EncryptDataKey ⟨[("k0", ⟨"k0", List.replicate 32 7⟩)], "k0"⟩ nonce dek =
      .ok (blob, MasterKeyStore.activeKeyID ⟨[("k0", ⟨"k0", List.replicate 32 7⟩)], "k0"⟩)) ∧
    (∀ kb kid id, (lookupKey ⟨[("k0", ⟨"k0", List.replicate 32 7⟩)], "k0"⟩ id).isSome →
      (lookupKey (RotateMasterKey ⟨[("k0", ⟨"k0", List.replicate 32 7⟩)], "k0"⟩ kb kid).1 id).isSome) :=
  reachable_store_invariant ⟨[("k0", ⟨"k0", List.replicate 32 7⟩)], "k0"⟩
    (Reachable.init [⟨"k0", List.replicate 32 7⟩] ⟨[("k0", ⟨"k0", List.replicate 32 7⟩)], "k0"⟩ rfl)

/-- C5: NewMasterKeyStore rejects an empty key list, rejects any list holding
a key whose material is not exactly 32 bytes (constructing nothing), and on a
non-empty all-32-byte list succeeds with the first key id active. -/
theorem new_master_key_store_validation :
    (NewMasterKeyStore [] = .error "no master keys provided") ∧
    (∀ keys : List MasterKey, (∃ k ∈ keys, k.key.length ≠ 32) →
      NewMasterKeyStore keys = .error "master key must be 32 bytes for AES-256") ∧
    (∀ (keys : List MasterKey) (h : keys ≠ []), (∀ k ∈ keys, k.key.length = 32) →
      ∃ m, NewMasterKeyStore keys = .ok m ∧ m.activeKeyID = (keys.head h).id) := by
  refine ⟨rfl, ?_, ?_⟩
  · intro keys hbad
    cases keys with
    | nil =>
      obtain ⟨k, hk, _⟩ := hbad
      simp at hk
    | cons k0 rest =>
      simp only [NewMasterKeyStore]
      rw [buildKeyMap_error (k0 :: rest) [] hbad]
      rfl
  · intro keys hne hall
    cases keys with
    | nil => exact absurd rfl hne
    | cons k0 rest =>
      obtain ⟨tbl, htbl⟩ := buildKeyMap_total (k0 :: rest) [] hall
      refine ⟨⟨tbl, k0.id⟩, ?_, rfl⟩
      simp [NewMasterKeyStore, htbl, Except.map]

/-- C5 witness: a 3-byte key is rejected, and a single 32-byte key yields a
store whose active id is that key's id. -/
theorem new_master_key_store_validation_witness :
    NewMasterKeyStore [⟨"short", [1, 2, 3]⟩] =
      .error "master key must be 32 bytes for AES-256" ∧
    ∃ m, NewMasterKeyStore [⟨"k0", List.replicate 32 7⟩] = .ok m ∧
      m.activeKeyID = (List.head [(⟨"k0", List.replicate 32 7⟩ : MasterKey)] (by simp)).id :=
  ⟨new_master_key_store_validation.2.1 [⟨"short", [1, 2, 3]⟩]
      ⟨⟨"short", [1, 2, 3]⟩, by simp, by decide⟩,
   new_master_key_store_validation.2.2 [⟨"k0", List.replicate 32 7⟩] (by simp)
      (fun k hk => by simp at hk; subst hk; rfl)⟩

/-- C4 (amended): DeleteDataKeyHandler is authorization-gated under the
ROTATE_MASTER_KEY action (the source defines no DELETE_DATA_KEY action);
for every identity the deletion proceeds if and only if the role is ADMIN,
and a SERVICE or AUDITOR identity is denied with the store untouched. -/
theorem delete_data_key_requires_admin (id : Identity) (dekID : String) (ds : DEKStore) :
    ((DeleteDataKeyHandler id dekID ds).1 = DeleteResult.noContent ↔ id.role = RoleAdmin) ∧
    (id.role = RoleService → DeleteDataKeyHandler id dekID ds =
      (.forbidden "action not authorized for SERVICE role", ds)) ∧
    (id.role = RoleAuditor → DeleteDataKeyHandler id dekID ds =
      (.forbidden "action not authorized for AUDITOR role", ds)) := by
  refine ⟨?_, ?_, ?_⟩
  · by_cases hA : id.role = RoleAdmin
    · simp [DeleteDataKeyHandler, deleteDataKeyGateAction, IsAuthorized, hA]
    · by_cases hS : id.role = RoleService
      · simp [DeleteDataKeyHandler, deleteDataKeyGateAction, IsAuthorized, hA, hS,
          ActionRotateMasterKey, ActionGenerateDataKey, ActionEncrypt, ActionDecrypt,
          RoleAdmin, RoleService]
      · by_cases hAu : id.role = RoleAuditor
        · simp [DeleteDataKeyHandler, deleteDataKeyGateAction, IsAuthorized, hA, hS, hAu,
            RoleAdmin, RoleService, RoleAuditor]
        · simp [DeleteDataKeyHandler, deleteDataKeyGateAction, IsAuthorized, hA, hS, hAu]
  · intro hS
    have hA : ¬ id.role = RoleAdmin := by
      rw [hS]
      decide
    simp [DeleteDataKeyHandler, deleteDataKeyGateAction, IsAuthorized, hA, hS,
      ActionRotateMasterKey, ActionGenerateDataKey, ActionEncrypt, ActionDecrypt,
      RoleAdmin, RoleService]
  · intro hAu
    have hA : ¬ id.role = RoleAdmin := by
      rw [hAu]
      decide
    have hS : ¬ id.role = RoleService := by
      rw [hAu]
      decide
    simp [DeleteDataKeyHandler, deleteDataKeyGateAction, IsAuthorized, hA, hS, hAu,
      RoleAdmin, RoleService, RoleAuditor]

/-- C4 counterexample: the action DeleteDataKeyHandler passes to IsAuthorized
is the ROTATE_MASTER_KEY constant, not a DELETE_DATA_KEY action as the claim
states. -/
theorem delete_data_key_requires_admin_cex :
    deleteDataKeyGateAction = "ROTATE_MASTER_KEY" ∧
    deleteDataKeyGateAction ≠ "DELETE_DATA_KEY" := by
  refine ⟨rfl, ?_⟩
  decide

/-- C4 witness: SERVICE and AUDITOR are denied with messages and the DEK store
untouched. -/
theorem delete_data_key_requires_admin_witness :
    DeleteDataKeyHandler ⟨"svc", RoleService⟩ "r1" [] =
      (.forbidden "action not authorized for SERVICE role", []) ∧
    DeleteDataKeyHandler ⟨"aud", RoleAuditor⟩ "r1" [] =
      (.forbidden "action not authorized for AUDITOR role", []) :=
  ⟨(delete_data_key_requires_admin ⟨"svc", RoleService⟩ "r1" []).2.1 rfl,
   (delete_data_key_requires_admin ⟨"aud", RoleAuditor⟩ "r1" []).2.2 rfl⟩

/-- C9: on the success path, GenerateDataKeyHandler responds with exactly the
record id of the stored wrapped DEK and the master-key id used; the stored
document holds the wrapped blob, which differs from the plaintext DEK, and
the response type carries no DEK field at all. -/
theorem generate_data_key_response (id : Identity) (dek nonce : Bytes) (newID : String)
    (ks : MasterKeyStore) (ds : DEKStore) (ak : MasterKey)
    (hauth : IsAuthorized id ActionGenerateDataKey = none)
    (hak : lookupKey ks ks.activeKeyID = some ak)
    (hlen : ak.key.length = 32) (hn : nonce.length = NonceSize) :
    ∃ blob : Bytes,
      GenerateDataKeyHandler id dek nonce newID ks ds =
        .ok ({ dekID := newID, masterKeyID := ak.id }, (newID, ⟨blob, ak.id⟩) :: ds) ∧
      blob.length = dek.length + 28 ∧ blob ≠ dek := by
  have hv : validAESKeyLen ak.key = true := by simp [validAESKeyLen, hlen]
  refine ⟨nonce ++ gcmSeal ak.key nonce dek, ?_, ?_, ?_⟩
  · simp [GenerateDataKeyHandler, hauth, EncryptDataKey, hak, hv, InsertDEK]
  · simp only [List.length_append, gcmSeal_length, hn, NonceSize, TagSize]
    omega
  · intro hEq
    have hlenEq := congrArg List.length hEq
    simp only [List.length_append, gcmSeal_length, hn, NonceSize, TagSize] at hlenEq
    omega

/-! ### Concrete values used by the witnesses -/

/-- A concrete 32-byte master key material. -/
def demoKeyBytes : Bytes := List.replicate 32 7

/-- A concrete master key. -/
def demoMasterKey : MasterKey := ⟨"k0", demoKeyBytes⟩

/-- The store holding just demoMasterKey, as built by NewMasterKeyStore. -/
def demoStore : MasterKeyStore := ⟨[("k0", demoMasterKey)], "k0"⟩

/-- A concrete 12-byte nonce. -/
def demoNonce : Bytes := List.replicate 12 0

/-- A concrete payload. -/
def demoPayload : Bytes := [104, 105, 33]

/-- The blob EncryptAES256GCM produces for the demo key, nonce and payload. -/
def demoBlob : Bytes := demoNonce ++ gcmSeal demoKeyBytes demoNonce demoPayload

/-- A concrete 32-byte DEK. -/
def demoDEK : Bytes := List.replicate 32 1

/-- The wrapped form of demoDEK under the demo store's active key. -/
def demoWrapped : Bytes := demoNonce ++ gcmSeal demoKeyBytes demoNonce demoDEK

/-- C3 witness: the round trip evaluated on the demo key, nonce and payload. -/
theorem encrypt_decrypt_round_trip_witness :
    DecryptAES256GCM demoKeyBytes demoBlob = .ok demoPayload :=
  encrypt_decrypt_round_trip demoKeyBytes demoNonce demoPayload demoBlob rfl rfl rfl

/-- C8 witness: the demo blob has the nonce-ciphertext-tag shape. -/
theorem encrypted_blob_shape_witness :
    demoBlob.length = demoPayload.length + 28 ∧ demoBlob.take NonceSize = demoNonce ∧
    ∃ ct tag : Bytes, demoBlob = demoNonce ++ (ct ++ tag) ∧
      ct.length = demoPayload.length ∧ tag.length = TagSize :=
  encrypted_blob_shape demoKeyBytes demoNonce demoPayload demoBlob rfl rfl rfl

/-- C7 witness: a 3-byte blob is rejected as too short by both decryption
entry points. -/
theorem decrypt_too_short_witness :
    DecryptAES256GCM demoKeyBytes [1, 2, 3] = .error "ciphertext too short" ∧
    DecryptDataKey demoStore [1, 2, 3] "k0" = .error "ciphertext too short" :=
  decrypt_too_short demoKeyBytes [1, 2, 3] rfl (by decide) demoStore "k0" demoMasterKey rfl rfl

/-- C2 witness: after one rotation to a fresh id k1, the DEK wrapped under k0
still decrypts by naming k0, and the active key id is no longer k0. -/
theorem rotation_durability_witness :
    DecryptDataKey (rotateMany demoStore [(List.replicate 32 9, "k1")]) demoWrapped "k0" =
      .ok demoDEK ∧
    ([(List.replicate 32 9, "k1")] ≠ ([] : List (Bytes × String)) →
      ∃ k, GetActiveKey (rotateMany demoStore [(List.replicate 32 9, "k1")]) = .ok k ∧
        k.id ≠ "k0") :=
  rotation_durability demoStore demoNonce demoDEK demoWrapped "k0" rfl rfl rfl
    [(List.replicate 32 9, "k1")]
    (fun r hr => by
      simp at hr
      subst hr
      decide)

/-- C9 witness: a SERVICE identity generating a data key against the demo
store gets back exactly the fresh record id and the master key id. -/
theorem generate_data_key_response_witness :
    ∃ blob : Bytes,
      GenerateDataKeyHandler ⟨"svc", RoleService⟩ demoDEK demoNonce "rec1" demoStore [] =
        .ok ({ dekID := "rec1", masterKeyID := demoMasterKey.id },
             ("rec1", ⟨blob, demoMasterKey.id⟩) :: []) ∧
      blob.length = demoDEK.length + 28 ∧ blob ≠ demoDEK :=
  generate_data_key_response ⟨"svc", RoleService⟩ demoDEK demoNonce "rec1" demoStore []
    demoMasterKey rfl rfl rfl rfl

end KMS
